import Mathlib

/-!
Shallow embedding of the gateway certificate-management core of Narrowlink
(src/gateway/src/service/certificate/manager.rs), together with theorems
settling the frozen claims about it.

Modelling conventions:
* `HashMap K V` is modelled as a function `K → Option V`; `HashSet K` as a
  `Finset K`.  Rust's `(uid, agent_name)` tenancy keys are `String × String`.
* The `Certificate` value is opaque to the store: only the fields the manager
  consults (`renew_needed`, `domains`, `config`) are kept; the TLS server
  configuration is an opaque identifier.
* Asynchronous external collaborators (the storage backend and the ACME
  adapter) are modelled as oracles: the responses the external world would
  give are passed in as data, and the calls the code makes to the ACME
  adapter are recorded in an event trace so that "no code path calls the
  ACME adapter" becomes a statement about that trace.
-/

/-- Opaque stand-in for `Arc<rustls::ServerConfig>`: two configurations are
the same iff they are the same shared object, modelled by an identifier. -/
structure ServerConfig where
  id : Nat
deriving DecidableEq, Repr

/-- Opaque stand-in for `instant_acme::Account`. -/
abbrev Account := Nat

/-- Certificate PEM bytes, opaque to the manager. -/
abbrev PEM := String

/-- The fields of `super::Certificate` that manager.rs consults: the
renewal-window test, the SAN domain list (`None` when chain parsing failed)
and the prebuilt TLS server configuration. -/
structure Certificate where
  renew_needed : Bool
  domains : Option (List String)
  config : ServerConfig
deriving DecidableEq, Repr

/-- `CertificateStore` (manager.rs lines 30-33): `certificates` maps a
tenancy key to its certificate, `domain_map` is the reverse index from a
domain to the set of tenancy keys that claimed it. -/
@[ext]
structure CertificateStore where
  certificates : String × String → Option Certificate
  domain_map : String → Option (Finset (String × String))

/-- `CertificateStore::new` (manager.rs lines 36-41): both maps empty. -/
def CertificateStore.empty : CertificateStore where
  certificates := fun _ => none
  domain_map := fun _ => none

/-- `CertificateStore::insert` (manager.rs lines 42-60): store the
certificate under `(uid, agent_name)` and, for each listed domain, add the
key to that domain's set, creating a fresh singleton set when the domain was
unindexed.  Nothing is ever removed from the index here. -/
def CertificateStore.insert (s : CertificateStore) (uid agent_name : String)
    (domains : List String) (certificate : Certificate) : CertificateStore where
  certificates := fun k =>
    if k = (uid, agent_name) then some certificate else s.certificates k
  domain_map := fun d =>
    if d ∈ domains then
      some (Insert.insert (uid, agent_name) ((s.domain_map d).getD ∅))
    else s.domain_map d

/-- `CertificateStore::remove` (manager.rs lines 61-68): drop the
certificate, erase the key from every domain set, then retain only the
non-empty sets. -/
def CertificateStore.remove (s : CertificateStore) (uid agent_name : String) :
    CertificateStore where
  certificates := fun k =>
    if k = (uid, agent_name) then none else s.certificates k
  domain_map := fun d =>
    match s.domain_map d with
    | none => none
    | some agent_set =>
        if agent_set.erase (uid, agent_name) = ∅ then none
        else some (agent_set.erase (uid, agent_name))

/-- One mutation of the certificate store, for stating invariants over
arbitrary call sequences. -/
inductive StoreOp where
  | insert (uid agent_name : String) (domains : List String) (certificate : Certificate)
  | remove (uid agent_name : String)

/-- Apply one store operation. -/
def applyOp (s : CertificateStore) : StoreOp → CertificateStore
  | .insert uid agent_name domains certificate => s.insert uid agent_name domains certificate
  | .remove uid agent_name => s.remove uid agent_name

/-- The store reached from the empty store by a sequence of operations. -/
def applyOps (ops : List StoreOp) : CertificateStore :=
  ops.foldl applyOp CertificateStore.empty

/-- Specification-side accumulator for one tenancy key `k`: `none` while `k`
has no certificate, otherwise the union of the domain-list arguments of every
`insert` of `k` since `k` was last removed. -/
def accStep (k : String × String) (acc : Option (Finset String)) :
    StoreOp → Option (Finset String)
  | .insert uid agent_name domains _ =>
      if (uid, agent_name) = k then some (acc.getD ∅ ∪ domains.toFinset) else acc
  | .remove uid agent_name =>
      if (uid, agent_name) = k then none else acc

/-- The accumulated inserted domains of key `k` over a whole operation
sequence starting from the empty store. -/
def accDomains (ops : List StoreOp) (k : String × String) : Option (Finset String) :=
  ops.foldl (accStep k) none

/-- Fixed sample certificates used by the concrete witnesses and
counterexamples. -/
def certA : Certificate := { renew_needed := false, domains := some ["d1"], config := ⟨1⟩ }

/-- Second sample certificate, with a different domain list. -/
def certB : Certificate := { renew_needed := false, domains := some ["d2"], config := ⟨2⟩ }

/-- Sample certificate that reports `renew_needed()`. -/
def certR : Certificate := { renew_needed := true, domains := some ["d1"], config := ⟨3⟩ }

/-- `GatewayError` variants that manager.rs constructs or matches (the enum
itself lives in src/gateway/src/error.rs, outside the staged sources; the
`Storage` constructor stands for an arbitrary storage-backend failure the
spec calls `StorageError`). -/
inductive GatewayError where
  | CertificateNotFound
  | CertificateRenewalRequired
  | ACMEIsDisabled
  | ACMEChallengeNotFound
  | ACMEFailed
  | Invalid (what : String)
  | Storage
deriving DecidableEq, Repr

/-- `super::acme::ACMEChallenge` as manager.rs matches it: an HTTP-01 entry
carries `(token, key_authorization)`, a TLS-ALPN-01 entry carries a TLS
server configuration. -/
inductive ACMEChallenge where
  | Http01 (token key_authorization : String)
  | TlsAlpn01 (conf : ServerConfig)
deriving DecidableEq, Repr

/-- `ACMEChallengeType` (fixed at manager construction). -/
inductive ACMEChallengeType where
  | Http01
  | TlsAlpn01
deriving DecidableEq, Repr

/-- The challenge registry `acme_configurations: HashMap<String, ACMEChallenge>`
as a function map. -/
abbrev ChallengeRegistry := String → Option ACMEChallenge

/-- `CertificateManager::get_acme_tls_challenge` (manager.rs lines 331-349):
a registry miss is `CertificateNotFound` (`ok_or`), a non-TLS-ALPN-01 entry
is also `CertificateNotFound`, a TLS-ALPN-01 entry yields its stored
configuration. -/
def get_acme_tls_challenge (acme_configurations : ChallengeRegistry)
    (domain : String) : Except GatewayError ServerConfig :=
  match acme_configurations domain with
  | none => .error .CertificateNotFound
  | some (.Http01 _ _) => .error .CertificateNotFound
  | some (.TlsAlpn01 conf) => .ok conf

/-- `CertificateManager::load_to_memory` (manager.rs lines 293-313), with the
storage backend's `get` response passed in as `storage_get`.  Returns the
updated store paired with the call's result: a storage failure propagates
before the store is touched, a certificate that needs renewal yields
`CertificateRenewalRequired` without inserting, and otherwise the
certificate is inserted under the key and the given domain list. -/
def load_to_memory (store : CertificateStore)
    (storage_get : Except GatewayError (Certificate × Option Account))
    (uid agent_name : String) (domains : List String) :
    CertificateStore × Except GatewayError Unit :=
  match storage_get with
  | .error e => (store, .error e)
  | .ok (cert, _) =>
      if cert.renew_needed then (store, .error .CertificateRenewalRequired)
      else (store.insert uid agent_name domains cert, .ok ())

/-- One call the manager makes into the ACME adapter (`Acme`), recorded so
that adapter usage is observable. -/
inductive AcmeCall where
  | from_account
  | new_order
  | get_http_01_certificate_challenges
  | get_tls_alpn_01_certificate_challenges
  | check_challenge
deriving DecidableEq, Repr

/-- Responses of the external world during one `issue` call: the storage
backend's per-tenancy account lookup and `put` results, and the ACME
adapter's outcomes. -/
structure AcmeOracle where
  get_acme_account : Option Account
  from_account : Except GatewayError Unit
  new_order : Except GatewayError (Option PEM)
  http_challenges : Except GatewayError (List (String × ACMEChallenge))
  tls_challenges : Except GatewayError (List (String × ACMEChallenge))
  check_challenge : Except GatewayError PEM
  put : String → String → Option Account → PEM → Except GatewayError Unit

/-- The challenge list the code pulls for the configured challenge type
(manager.rs lines 237-240). -/
def fetchChallenges (oracle : AcmeOracle) :
    ACMEChallengeType → Except GatewayError (List (String × ACMEChallenge))
  | .Http01 => oracle.http_challenges
  | .TlsAlpn01 => oracle.tls_challenges

/-- The adapter call that pulls the challenge list, per challenge type. -/
def fetchCall : ACMEChallengeType → AcmeCall
  | .Http01 => .get_http_01_certificate_challenges
  | .TlsAlpn01 => .get_tls_alpn_01_certificate_challenges

/-- Register every retrieved challenge under its domain
(manager.rs lines 243-251). -/
def registerChallenges (reg : ChallengeRegistry)
    (challenges : List (String × ACMEChallenge)) : ChallengeRegistry :=
  challenges.foldl (fun r ch => fun d => if d = ch.1 then some ch.2 else r d) reg

/-- Remove every listed challenge domain from the registry
(manager.rs lines 279-284). -/
def removeDomains (reg : ChallengeRegistry) (ds : List String) : ChallengeRegistry :=
  ds.foldl (fun r dom => fun d => if d = dom then none else r d) reg

/-- Everything observable about one `issue` call: the final challenge
registry, the domains the call registered (`challenge_domains` in the code),
the arguments of every `storage.put` call made, the trace of ACME-adapter
calls, and the returned result. -/
structure IssueOutcome where
  acme_configurations : ChallengeRegistry
  challenge_domains : List String
  puts : List (String × String × Option Account × PEM)
  calls : List AcmeCall
  result : Except GatewayError Unit

/-- `CertificateManager::issue` (manager.rs lines 209-291).  The effective
account is `account.or(storage.get_acme_account(..)).or(self.acme_account)`;
unless both it and `self.acme_type` are present the call fails
`ACMEIsDisabled` before touching the adapter.  Then `from_account` and
`new_order` failures propagate; a short-circuit PEM is `put` with account
`None`; otherwise the challenges of the configured type are registered, the
challenge is checked (a success being `put` with the explicit `account`
argument), every registered domain is unconditionally deregistered, and the
call returns `Ok` on full success and `ACMEFailed` otherwise. -/
def issue (acme_type : Option ACMEChallengeType) (acme_account : Option Account)
    (oracle : AcmeOracle) (acme_configurations : ChallengeRegistry)
    (uid agent_name : String) (domains : List String)
    (account : Option Account) : IssueOutcome :=
  match (account.or oracle.get_acme_account).or acme_account, acme_type with
  | some _, some challenge_type =>
    (match oracle.from_account with
    | .error e =>
        { acme_configurations := acme_configurations, challenge_domains := []
          puts := [], calls := [.from_account], result := .error e }
    | .ok _ =>
      match oracle.new_order with
      | .error e =>
          { acme_configurations := acme_configurations, challenge_domains := []
            puts := [], calls := [.from_account, .new_order], result := .error e }
      | .ok (some pem) =>
          { acme_configurations := acme_configurations, challenge_domains := []
            puts := [(uid, agent_name, none, pem)]
            calls := [.from_account, .new_order]
            result := oracle.put uid agent_name none pem }
      | .ok none =>
        match fetchChallenges oracle challenge_type with
        | .error e =>
            { acme_configurations := acme_configurations, challenge_domains := []
              puts := []
              calls := [.from_account, .new_order, fetchCall challenge_type]
              result := .error e }
        | .ok challenges =>
          let attempt : Bool × List (String × String × Option Account × PEM) :=
            match oracle.check_challenge with
            | .error _ => (false, [])
            | .ok pem =>
              match oracle.put uid agent_name account pem with
              | .error _ => (false, [(uid, agent_name, account, pem)])
              | .ok _ => (true, [(uid, agent_name, account, pem)])
          { acme_configurations :=
              removeDomains (registerChallenges acme_configurations challenges)
                (challenges.map Prod.fst)
            challenge_domains := challenges.map Prod.fst
            puts := attempt.2
            calls := [.from_account, .new_order, fetchCall challenge_type,
              .check_challenge]
            result := if attempt.1 then .ok () else .error .ACMEFailed })
  | _, _ =>
      { acme_configurations := acme_configurations, challenge_domains := []
        puts := [], calls := [], result := .error .ACMEIsDisabled }

/-- Everything observable about one `Load` command handled by the control
loop: the resulting store and registry, plus the ACME-adapter calls and
`put` calls made on the way. -/
structure LoadOutcome where
  certificate_store : CertificateStore
  acme_configurations : ChallengeRegistry
  calls : List AcmeCall
  puts : List (String × String × Option Account × PEM)

/-- The control loop's `Load` arm (manager.rs lines 164-182): try
`load_to_memory`; when it fails and ACME is enabled, run `issue` with no
explicit account and try `load_to_memory` once more; when it fails and ACME
is disabled, stop there.  `storage_get1`/`storage_get2` are the storage
responses of the two possible `load_to_memory` attempts. -/
def handleLoad (acme_type : Option ACMEChallengeType) (acme_account : Option Account)
    (oracle : AcmeOracle)
    (storage_get1 storage_get2 : Except GatewayError (Certificate × Option Account))
    (store : CertificateStore) (acme_configurations : ChallengeRegistry)
    (uid agent_name : String) (domains : List String) : LoadOutcome :=
  match load_to_memory store storage_get1 uid agent_name domains with
  | (store1, .ok _) =>
      { certificate_store := store1, acme_configurations := acme_configurations
        calls := [], puts := [] }
  | (store1, .error _) =>
    if acme_type.isSome then
      let io := issue acme_type acme_account oracle acme_configurations
        uid agent_name domains none
      { certificate_store :=
          (load_to_memory store1 storage_get2 uid agent_name domains).1
        acme_configurations := io.acme_configurations
        calls := io.calls, puts := io.puts }
    else
      { certificate_store := store1, acme_configurations := acme_configurations
        calls := [], puts := [] }

/-- The fields of `CertificateManager` (manager.rs lines 90-98).  The four
`Arc`-shared collaborators (store, challenge registry, storage backend) and
the channel sender are modelled by identifiers: equal identifier means the
same shared object. -/
structure CertificateManager where
  certificate_store : Nat
  acme_configurations : Nat
  acme_type : Option ACMEChallengeType
  acme_account : Option Account
  storage : Nat
  sender : Nat
  handler : Option Nat

/-- `impl Clone for CertificateManager` (manager.rs lines 100-113): every
field is cloned from the original except `handler`, which is `None`. -/
def CertificateManager.clone (m : CertificateManager) : CertificateManager where
  certificate_store := m.certificate_store
  acme_configurations := m.acme_configurations
  acme_type := m.acme_type
  acme_account := m.acme_account
  storage := m.storage
  sender := m.sender
  handler := none

/-- The store reached by first inserting `certA` for `("u", "a")`, used as the
prior state of the round-trip counterexample. -/
def storeC7 : CertificateStore := CertificateStore.empty.insert ("u") ("a") (["d1"]) certA

/-- The store reached by inserting `("u", "a")` first with domain list
`["d1"]` and then with domain list `["d2"]`. -/
def storeC1 : CertificateStore :=
  applyOps [StoreOp.insert ("u") ("a") (["d1"]) certA,
    StoreOp.insert ("u") ("a") (["d2"]) certB]

/-- The domain index has no empty sets. -/
def NoEmptySets (s : CertificateStore) : Prop :=
  ∀ d agent_set, s.domain_map d = some agent_set → agent_set.Nonempty

/-- The store's view of one tenancy key `k` agrees with the accumulator
`acc`: `k` has a certificate iff `acc` is set, and `k` is indexed under a
domain iff that domain is in `acc`. -/
def TracksKey (s : CertificateStore) (k : String × String)
    (acc : Option (Finset String)) : Prop :=
  ((s.certificates k).isSome ↔ acc.isSome) ∧
  ∀ d, k ∈ (s.domain_map d).getD ∅ ↔ d ∈ acc.getD ∅

/-- Oracle of a fully successful HTTP-01 issuance: no short-circuit, one
challenge for domain `d1`, a passing challenge check, a succeeding `put`. -/
def oracleW : AcmeOracle where
  get_acme_account := none
  from_account := .ok ()
  new_order := .ok none
  http_challenges := .ok [(("d1"), ACMEChallenge.Http01 ("t") ("k"))]
  tls_challenges := .ok []
  check_challenge := .ok ("pem")
  put := fun _ _ _ _ => .ok ()

/-- Oracle whose `new_order` short-circuits with a cached PEM. -/
def oracleShort : AcmeOracle := { oracleW with new_order := .ok (some ("pem")) }

/-- Applying `removeDomains` pointwise: a domain in the removal list maps to
`none`, any other domain is untouched. -/
theorem removeDomains_apply (ds : List String) (reg : ChallengeRegistry) (d : String) :
    removeDomains reg ds d = if d ∈ ds then none else reg d := by
  induction ds generalizing reg with
  | nil => simp [removeDomains]
  | cons dom rest ih =>
      show removeDomains (fun d' => if d' = dom then none else reg d') rest d = _
      rw [ih]
      by_cases h1 : d ∈ rest
      · simp [h1]
      · by_cases h2 : d = dom <;> simp [h1, h2]

/-- C8: cloning the manager copies the shared store, challenge registry, ACME
type and account, storage handle and command-channel sender, while the
clone's background-loop handle field is `None`. -/
theorem C8_clone_semantics (m : CertificateManager) :
    (m.clone).certificate_store = m.certificate_store ∧
    (m.clone).acme_configurations = m.acme_configurations ∧
    (m.clone).acme_type = m.acme_type ∧
    (m.clone).acme_account = m.acme_account ∧
    (m.clone).storage = m.storage ∧
    (m.clone).sender = m.sender ∧
    (m.clone).handler = none :=
  ⟨rfl, rfl, rfl, rfl, rfl, rfl, rfl⟩

/-- C2 counterexample: on a registry miss (and likewise on an `Http01`
entry) `get_acme_tls_challenge` returns `CertificateNotFound`, which is a
different error from the `ACMEChallengeNotFound` the claim states. -/
theorem C2_counterexample :
    get_acme_tls_challenge (fun _ => none) ("a.example") =
      .error .CertificateNotFound ∧
    get_acme_tls_challenge (fun _ => some (ACMEChallenge.Http01 ("t") ("k")))
      ("a.example") = .error .CertificateNotFound ∧
    GatewayError.CertificateNotFound ≠ GatewayError.ACMEChallengeNotFound :=
  ⟨rfl, rfl, by decide⟩

/-- C2 (amended): `get_acme_tls_challenge` fails with `CertificateNotFound`
when the registry has no entry for the domain or the entry is `Http01`, and
returns the stored TLS server configuration when a `TlsAlpn01` entry is
present. -/
theorem C2_tls_challenge_errors (reg : ChallengeRegistry) (domain : String) :
    (reg domain = none →
      get_acme_tls_challenge reg domain = .error .CertificateNotFound) ∧
    (∀ token key_authorization,
      reg domain = some (.Http01 token key_authorization) →
      get_acme_tls_challenge reg domain = .error .CertificateNotFound) ∧
    (∀ conf, reg domain = some (.TlsAlpn01 conf) →
      get_acme_tls_challenge reg domain = .ok conf) := by
  refine ⟨fun h => ?_, fun token key_authorization h => ?_, fun conf h => ?_⟩ <;>
    simp [get_acme_tls_challenge, h]

/-- C2 witness: concrete registries exercising the miss case and the
`TlsAlpn01` case. -/
theorem C2_witness :
    get_acme_tls_challenge (fun _ => none) ("a.example") =
      .error .CertificateNotFound ∧
    get_acme_tls_challenge (fun _ => some (ACMEChallenge.TlsAlpn01 ⟨7⟩))
      ("a.example") = .ok ⟨7⟩ :=
  ⟨(C2_tls_challenge_errors (fun _ => none) ("a.example")).1 rfl,
   (C2_tls_challenge_errors (fun _ => some (ACMEChallenge.TlsAlpn01 ⟨7⟩))
     ("a.example")).2.2 ⟨7⟩ rfl⟩

/-- C3: `load_to_memory` leaves the store unchanged whenever it fails; a
retrieved certificate that reports `renew_needed()` yields
`CertificateRenewalRequired` without inserting, and on success the retrieved
certificate is inserted under the key and domain list. -/
theorem C3_load_to_memory_atomic (store : CertificateStore)
    (storage_get : Except GatewayError (Certificate × Option Account))
    (uid agent_name : String) (domains : List String) :
    (∀ e, (load_to_memory store storage_get uid agent_name domains).2 = .error e →
      (load_to_memory store storage_get uid agent_name domains).1 = store) ∧
    (∀ cert oa, storage_get = .ok (cert, oa) → cert.renew_needed = true →
      load_to_memory store storage_get uid agent_name domains =
        (store, .error .CertificateRenewalRequired)) ∧
    (∀ cert oa, storage_get = .ok (cert, oa) → cert.renew_needed = false →
      load_to_memory store storage_get uid agent_name domains =
        (store.insert uid agent_name domains cert, .ok ())) := by
  refine ⟨fun e he => ?_, fun cert oa hg hr => ?_, fun cert oa hg hr => ?_⟩
  · rcases storage_get with e2 | ⟨cert, oa⟩
    · rfl
    · rcases hr : cert.renew_needed
      · simp [load_to_memory, hr] at he
      · simp [load_to_memory, hr]
  · subst hg; simp [load_to_memory, hr]
  · subst hg; simp [load_to_memory, hr]

/-- C3 witness: a failing storage get, a renewal-needed certificate and a
healthy certificate, each against the empty store. -/
theorem C3_witness :
    (load_to_memory CertificateStore.empty (.error .Storage) ("u") ("a")
      (["d1"])).1 = CertificateStore.empty ∧
    load_to_memory CertificateStore.empty (.ok (certR, none)) ("u") ("a")
      (["d1"]) = (CertificateStore.empty, .error .CertificateRenewalRequired) ∧
    load_to_memory CertificateStore.empty (.ok (certA, none)) ("u") ("a")
      (["d1"]) = (CertificateStore.empty.insert ("u") ("a") (["d1"]) certA, .ok ()) :=
  ⟨(C3_load_to_memory_atomic CertificateStore.empty (.error .Storage) ("u") ("a")
      (["d1"])).1 GatewayError.Storage rfl,
   (C3_load_to_memory_atomic CertificateStore.empty (.ok (certR, none)) ("u")
      ("a") (["d1"])).2.1 certR none rfl rfl,
   (C3_load_to_memory_atomic CertificateStore.empty (.ok (certA, none)) ("u")
      ("a") (["d1"])).2.2 certA none rfl rfl⟩

/-- C10: `CertificateStore::remove` is idempotent, and removing a key that is
absent from the store (no certificate, indexed nowhere) whose index has no
empty sets leaves the store unchanged. -/
theorem C10_remove_idempotent (s : CertificateStore) (uid agent_name : String) :
    (s.remove uid agent_name).remove uid agent_name = s.remove uid agent_name ∧
    (s.certificates (uid, agent_name) = none →
      (∀ d agent_set, s.domain_map d = some agent_set →
        (uid, agent_name) ∉ agent_set ∧ agent_set.Nonempty) →
      s.remove uid agent_name = s) := by
  constructor
  · apply CertificateStore.ext
    · funext k
      by_cases hk : k = (uid, agent_name) <;> simp [CertificateStore.remove, hk]
    · funext d
      rcases hd : s.domain_map d with _ | S
      · simp [CertificateStore.remove, hd]
      · by_cases hS : S.erase (uid, agent_name) = ∅ <;>
          simp [CertificateStore.remove, hd, hS, Finset.erase_idem]
  · intro hc hdm
    apply CertificateStore.ext
    · funext k
      by_cases hk : k = (uid, agent_name) <;> simp [CertificateStore.remove, hk, hc]
    · funext d
      rcases hd : s.domain_map d with _ | S
      · simp [CertificateStore.remove, hd]
      · obtain ⟨hnot, hne⟩ := hdm d S hd
        simp [CertificateStore.remove, hd, Finset.erase_eq_of_not_mem hnot,
          Finset.nonempty_iff_ne_empty.mp hne]

/-- C10 witness: removing the absent key `("u", "a")` from the empty store
leaves the store unchanged. -/
theorem C10_witness :
    CertificateStore.empty.remove ("u") ("a") = CertificateStore.empty :=
  (C10_remove_idempotent CertificateStore.empty ("u") ("a")).2 rfl
    (fun d agent_set h => absurd h (by simp [CertificateStore.empty]))

/-- C7 counterexample: when the key already holds a certificate,
`insert` followed by `remove` does not restore the prior store — the old
certificate for `("u", "a")` is lost. -/
theorem C7_counterexample :
    (storeC7.insert ("u") ("a") (["d1"]) certB).remove ("u") ("a") ≠ storeC7 := by
  intro h
  exact absurd (congrArg (fun st => st.certificates (("u"), ("a"))) h) (by decide)

/-- C7 (amended): `insert(k,d,c); remove(k)` restores the prior store
provided `k` held no certificate and appeared in no domain-index set of the
prior store, and the prior index had no empty sets. -/
theorem C7_insert_remove_roundtrip (s : CertificateStore) (uid agent_name : String)
    (domains : List String) (certificate : Certificate)
    (hc : s.certificates (uid, agent_name) = none)
    (hdm : ∀ d agent_set, s.domain_map d = some agent_set →
      (uid, agent_name) ∉ agent_set ∧ agent_set.Nonempty) :
    (s.insert uid agent_name domains certificate).remove uid agent_name = s := by
  apply CertificateStore.ext
  · funext k
    by_cases hk : k = (uid, agent_name) <;>
      simp [CertificateStore.remove, CertificateStore.insert, hk, hc]
  · funext d
    by_cases hd : d ∈ domains
    · rcases hS : s.domain_map d with _ | S
      · simp [CertificateStore.remove, CertificateStore.insert, hd, hS,
          Finset.erase_insert]
      · obtain ⟨hnot, hne⟩ := hdm d S hS
        simp [CertificateStore.remove, CertificateStore.insert, hd, hS,
          Finset.erase_insert hnot, Finset.nonempty_iff_ne_empty.mp hne]
    · rcases hS : s.domain_map d with _ | S
      · simp [CertificateStore.remove, CertificateStore.insert, hd, hS]
      · obtain ⟨hnot, hne⟩ := hdm d S hS
        simp [CertificateStore.remove, CertificateStore.insert, hd, hS,
          Finset.erase_eq_of_not_mem hnot, Finset.nonempty_iff_ne_empty.mp hne]

/-- C7 witness: inserting `("u", "a")` into the empty store and removing it
again restores the empty store. -/
theorem C7_witness :
    (CertificateStore.empty.insert ("u") ("a") (["d1"]) certA).remove ("u") ("a") =
      CertificateStore.empty :=
  C7_insert_remove_roundtrip CertificateStore.empty ("u") ("a") (["d1"]) certA rfl
    (fun d agent_set h => absurd h (by simp [CertificateStore.empty]))

/-- The empty store has no empty index sets. -/
theorem noEmptySets_empty : NoEmptySets CertificateStore.empty := by
  intro d agent_set h
  simp [CertificateStore.empty] at h

/-- Both store operations preserve the absence of empty index sets:
`insert` only ever adds a key to a set (or creates a singleton), and
`remove` prunes any set it empties. -/
theorem noEmptySets_applyOp (s : CertificateStore) (op : StoreOp)
    (h : NoEmptySets s) : NoEmptySets (applyOp s op) := by
  cases op with
  | insert uid agent_name domains certificate =>
    intro d agent_set hS
    by_cases hd : d ∈ domains
    · simp only [applyOp, CertificateStore.insert, hd, if_pos, Option.some.injEq] at hS
      exact hS ▸ Finset.insert_nonempty _ _
    · simp only [applyOp, CertificateStore.insert, hd, if_neg, not_false_iff] at hS
      exact h d agent_set hS
  | remove uid agent_name =>
    intro d agent_set hS
    simp only [applyOp, CertificateStore.remove] at hS
    rcases hd : s.domain_map d with _ | T <;> rw [hd] at hS
    · exact absurd hS (by simp)
    · by_cases hT : T.erase (uid, agent_name) = ∅
      · simp [hT] at hS
      · simp only [hT, if_neg, not_false_iff, Option.some.injEq] at hS
        exact hS ▸ Finset.nonempty_iff_ne_empty.mpr hT

/-- Every store reachable from the empty store has no empty index sets. -/
theorem noEmptySets_applyOps (ops : List StoreOp) : NoEmptySets (applyOps ops) := by
  suffices h : ∀ s, NoEmptySets s → NoEmptySets (ops.foldl applyOp s) from
    h CertificateStore.empty noEmptySets_empty
  induction ops with
  | nil => intro s hs; exact hs
  | cons op rest ih => intro s hs; exact ih (applyOp s op) (noEmptySets_applyOp s op hs)

/-- C6: after any sequence of `insert`/`remove` operations starting from the
empty store, `domain_map` contains no key whose set of tenancy keys is
empty. -/
theorem C6_no_empty_index_sets (ops : List StoreOp) (d : String)
    (agent_set : Finset (String × String))
    (h : (applyOps ops).domain_map d = some agent_set) : agent_set.Nonempty :=
  noEmptySets_applyOps ops d agent_set h

/-- C6 witness: after one insert the set indexed under `d1` is the non-empty
singleton `{("u", "a")}`. -/
theorem C6_witness :
    Finset.Nonempty {((("u") : String), (("a") : String))} :=
  C6_no_empty_index_sets [StoreOp.insert ("u") ("a") (["d1"]) certA] ("d1")
    {(("u"), ("a"))} (by decide)

/-- The empty store tracks every key with the empty accumulator. -/
theorem tracksKey_empty (k : String × String) :
    TracksKey CertificateStore.empty k none := by
  constructor
  · simp [CertificateStore.empty]
  · intro d
    simp [CertificateStore.empty]

/-- One store operation preserves the tracking relation between the store
and the per-key accumulator. -/
theorem tracksKey_step (s : CertificateStore) (k : String × String)
    (acc : Option (Finset String)) (op : StoreOp) (h : TracksKey s k acc) :
    TracksKey (applyOp s op) k (accStep k acc op) := by
  obtain ⟨h1, h2⟩ := h
  cases op with
  | insert uid agent_name domains certificate =>
    by_cases hk : (uid, agent_name) = k
    · subst hk
      constructor
      · simp [applyOp, CertificateStore.insert, accStep]
      · intro d
        have h2d := h2 d
        by_cases hd : d ∈ domains
        · simp [applyOp, CertificateStore.insert, accStep, hd]
        · simp only [applyOp, CertificateStore.insert, accStep, hd, if_neg,
            not_false_iff, if_pos, Option.getD_some, Finset.mem_union,
            List.mem_toFinset]
          rw [h2d]
          simp [hd]
    · have hk' : k ≠ (uid, agent_name) := fun he => hk he.symm
      constructor
      · simpa [applyOp, CertificateStore.insert, accStep, hk, hk'] using h1
      · intro d
        have h2d := h2 d
        by_cases hd : d ∈ domains
        · simp only [applyOp, CertificateStore.insert, accStep, hk, hd, if_pos,
            if_neg, not_false_iff, Option.getD_some, Finset.mem_insert, hk',
            false_or]
          rw [← h2d]
        · simpa [applyOp, CertificateStore.insert, accStep, hk, hd] using h2d
  | remove uid agent_name =>
    by_cases hk : (uid, agent_name) = k
    · subst hk
      constructor
      · simp [applyOp, CertificateStore.remove, accStep]
      · intro d
        rcases hdm : s.domain_map d with _ | T
        · simp [applyOp, CertificateStore.remove, accStep, hdm]
        · by_cases hT : T.erase (uid, agent_name) = ∅ <;>
            simp [applyOp, CertificateStore.remove, accStep, hdm, hT,
              Finset.not_mem_erase]
    · have hk' : k ≠ (uid, agent_name) := fun he => hk he.symm
      constructor
      · simpa [applyOp, CertificateStore.remove, accStep, hk, hk'] using h1
      · intro d
        have h2d := h2 d
        rcases hdm : s.domain_map d with _ | T
        · rw [hdm] at h2d
          simpa [applyOp, CertificateStore.remove, accStep, hk, hdm] using h2d
        · rw [hdm] at h2d
          simp only [Option.getD_some] at h2d
          by_cases hT : T.erase (uid, agent_name) = ∅
          · have hkT : k ∉ T := fun hmem => by
              have : k ∈ T.erase (uid, agent_name) := Finset.mem_erase.mpr ⟨hk', hmem⟩
              rw [hT] at this
              exact absurd this (Finset.not_mem_empty k)
            simp only [applyOp, CertificateStore.remove, accStep, hk, if_neg,
              not_false_iff, hdm, hT, if_pos, Option.getD_none,
              Finset.not_mem_empty, false_iff]
            rw [← h2d]
            exact hkT
          · simp only [applyOp, CertificateStore.remove, accStep, hk, if_neg,
              not_false_iff, hdm, hT, Option.getD_some, Finset.mem_erase]
            constructor
            · intro hx
              exact h2d.mp hx.2
            · intro hx
              exact ⟨hk', h2d.mpr hx⟩

/-- Tracking is preserved along any operation sequence. -/
theorem tracksKey_foldl (ops : List StoreOp) (k : String × String) :
    ∀ (s : CertificateStore) (acc : Option (Finset String)), TracksKey s k acc →
      TracksKey (ops.foldl applyOp s) k (ops.foldl (accStep k) acc) := by
  induction ops with
  | nil => intro s acc h; exact h
  | cons op rest ih => intro s acc h; exact ih (applyOp s op) (accStep k acc op) (tracksKey_step s k acc op h)

/-- C1 counterexample: after inserting `("u", "a")` with domain list
`["d1"]` and re-inserting it with domain list `["d2"]`, the key is still
indexed under `d1` although the current certificate's domain list is
`["d2"]` — re-insertion does not remove domains of the old list from the
index, so the claimed iff fails. -/
theorem C1_counterexample :
    ("u", "a") ∈ ((storeC1.domain_map ("d1")).getD ∅) ∧
    storeC1.certificates ("u", "a") = some certB ∧
    certB.domains = some ["d2"] ∧
    ("d1") ∉ (certB.domains.getD []) := by
  refine ⟨by decide, by decide, rfl, by decide⟩

/-- C1 (amended): after any sequence of `insert`/`remove` from the empty
store, key `k` is in `domain_map[d]` iff `k` has a certificate and `d` is in
the union of the domain-list arguments of the inserts of `k` since `k`'s
last removal; the index over-approximates the current certificate's domain
list because re-insertion never removes stale domains. -/
theorem C1_index_tracks_inserted_domains (ops : List StoreOp) (d : String)
    (k : String × String) :
    k ∈ ((applyOps ops).domain_map d).getD ∅ ↔
      ((applyOps ops).certificates k).isSome ∧ d ∈ (accDomains ops k).getD ∅ := by
  have h := tracksKey_foldl ops k CertificateStore.empty none (tracksKey_empty k)
  obtain ⟨h1, h2⟩ := h
  constructor
  · intro hmem
    have hacc : d ∈ (accDomains ops k).getD ∅ := (h2 d).mp hmem
    refine ⟨h1.mpr ?_, hacc⟩
    rcases hv : accDomains ops k with _ | A
    · rw [hv] at hacc
      exact absurd hacc (Finset.not_mem_empty d)
    · show (accDomains ops k).isSome = true
      rw [hv]
      rfl
  · intro ⟨_, hacc⟩
    exact (h2 d).mpr hacc

/-- C4: whatever the oracle answers, every challenge-registry entry an
`issue` call added (one per domain of the retrieved challenges) has been
removed from the registry by the time the call returns. -/
theorem C4_issue_challenge_cleanup (acme_type : Option ACMEChallengeType)
    (acme_account : Option Account) (oracle : AcmeOracle)
    (acme_configurations : ChallengeRegistry) (uid agent_name : String)
    (domains : List String) (account : Option Account) (d : String)
    (hd : d ∈ (issue acme_type acme_account oracle acme_configurations uid
      agent_name domains account).challenge_domains) :
    (issue acme_type acme_account oracle acme_configurations uid agent_name
      domains account).acme_configurations d = none := by
  obtain ⟨ga, fa, no, hc, tc, cc, pr⟩ := oracle
  simp only [issue] at hd ⊢
  rcases hch : (account.or ga).or acme_account with _ | acct
  · rw [hch] at hd
    rcases acme_type with _ | ctype <;> simp at hd
  · rw [hch] at hd
    rcases acme_type with _ | ctype
    · simp at hd
    · rcases fa with e | u
      · simp at hd
      · rcases no with e2 | op
        · simp at hd
        · rcases op with _ | pem
          · rcases ctype
            · rcases hc with e3 | challenges
              · simp [fetchChallenges] at hd
              · simp only [fetchChallenges] at hd ⊢
                simp only [List.mem_map] at hd ⊢
                rw [removeDomains_apply]
                simp at hd ⊢
                simp [hd]
            · rcases tc with e3 | challenges
              · simp [fetchChallenges] at hd
              · simp only [fetchChallenges] at hd ⊢
                simp only [List.mem_map] at hd ⊢
                rw [removeDomains_apply]
                simp at hd ⊢
                simp [hd]
          · simp at hd

/-- C4 witness: a successful HTTP-01 issuance registers a challenge for `d1`
and has deregistered it by the time the call returns. -/
theorem C4_witness :
    (issue (some .Http01) (some 0) oracleW (fun _ => none) ("u") ("a")
      (["d1"]) none).acme_configurations ("d1") = none :=
  C4_issue_challenge_cleanup (some .Http01) (some 0) oracleW (fun _ => none)
    ("u") ("a") (["d1"]) none ("d1") (by decide)

/-- C5: with no ACME challenge type configured, the control loop's `Load`
arm makes no ACME-adapter call (it skips `issue`), and a direct `issue` call
returns `ACMEIsDisabled` having made no adapter call either — for every
oracle, so in particular when the storage lookup fails. -/
theorem C5_acme_disabled_safety (acme_account : Option Account)
    (oracle : AcmeOracle)
    (storage_get1 storage_get2 : Except GatewayError (Certificate × Option Account))
    (store : CertificateStore) (acme_configurations : ChallengeRegistry)
    (uid agent_name : String) (domains : List String) (account : Option Account) :
    (handleLoad none acme_account oracle storage_get1 storage_get2 store
      acme_configurations uid agent_name domains).calls = [] ∧
    (issue none acme_account oracle acme_configurations uid agent_name domains
      account).result = .error .ACMEIsDisabled ∧
    (issue none acme_account oracle acme_configurations uid agent_name domains
      account).calls = [] := by
  obtain ⟨ga, fa, no, hc, tc, cc, pr⟩ := oracle
  have hissue : ∀ acct2 : Option Account,
      issue none acme_account ⟨ga, fa, no, hc, tc, cc, pr⟩ acme_configurations
        uid agent_name domains acct2 =
      { acme_configurations := acme_configurations, challenge_domains := []
        puts := [], calls := [], result := .error .ACMEIsDisabled } := by
    intro acct2
    simp only [issue]
    rcases (acct2.or ga).or acme_account with _ | acct <;> rfl
  refine ⟨?_, by rw [hissue account], by rw [hissue account]⟩
  rcases storage_get1 with e | ⟨cert, oa⟩
  · simp [handleLoad, load_to_memory]
  · rcases hr : cert.renew_needed <;> simp [handleLoad, load_to_memory, hr]

/-- C9: when `issue` short-circuits at `new_order` with a cached PEM, the
`put` records no account (`None`) even though an explicit account argument
was given; the explicit account is passed to `put` only on the
challenge-solving path. -/
theorem C9_issue_put_accounts (challenge_type : ACMEChallengeType)
    (acme_account : Option Account) (oracle : AcmeOracle)
    (acme_configurations : ChallengeRegistry) (uid agent_name : String)
    (domains : List String) (a : Account) :
    (∀ pem, oracle.from_account = .ok () → oracle.new_order = .ok (some pem) →
      (issue (some challenge_type) acme_account oracle acme_configurations uid
        agent_name domains (some a)).puts = [(uid, agent_name, none, pem)]) ∧
    (∀ challenges pem, oracle.from_account = .ok () → oracle.new_order = .ok none →
      fetchChallenges oracle challenge_type = .ok challenges →
      oracle.check_challenge = .ok pem →
      (issue (some challenge_type) acme_account oracle acme_configurations uid
        agent_name domains (some a)).puts =
        [(uid, agent_name, some a, pem)]) := by
  obtain ⟨ga, fa, no, hc, tc, cc, pr⟩ := oracle
  constructor
  · intro pem hfa hno
    simp only at hfa hno
    subst hfa hno
    simp [issue, Option.or]
  · intro challenges pem hfa hno hfetch hcc
    simp only at hfa hno hcc
    subst hfa hno hcc
    rcases hput : pr uid agent_name (some a) pem with e | u <;>
      (simp only [issue, Option.or]; rw [hfetch]; simp [hput])

/-- C9 witness: with explicit account `5`, the short-circuit path records a
`put` with no account while the challenge path records a `put` with the
explicit account. -/
theorem C9_witness :
    (issue (some .Http01) none oracleShort (fun _ => none) ("u") ("a") (["d1"])
      (some 5)).puts = [(("u"), ("a"), none, ("pem"))] ∧
    (issue (some .Http01) none oracleW (fun _ => none) ("u") ("a") (["d1"])
      (some 5)).puts = [(("u"), ("a"), some 5, ("pem"))] :=
  ⟨(C9_issue_put_accounts .Http01 none oracleShort (fun _ => none) ("u") ("a")
      (["d1"]) 5).1 ("pem") rfl rfl,
   (C9_issue_put_accounts .Http01 none oracleW (fun _ => none) ("u") ("a")
      (["d1"]) 5).2 [(("d1"), ACMEChallenge.Http01 ("t") ("k"))] ("pem")
      rfl rfl rfl rfl⟩
